import Mathlib

set_option linter.unusedVariables false

/-
Shallow embedding of `src/rules.cpp` from the hepek-chess-engine repository.
Bitmaps (C++ `unsigned long long`) are modelled as `Nat` values kept below
2^64, with wrap-around made explicit via `% 2^64` where the C++ semantics
wraps.  Squares (C++ `int`) are modelled as `Int` (they can be negative:
`INVALID_SQUARE = -1`, and offset arithmetic can leave the board).
C++ `while` loops whose termination is not structural are modelled with an
explicit fuel parameter returning `Option`; `none` means the loop did not
finish within the given fuel.  C++ `assert` statements are compiled out in
release builds and are not modelled.  Two places in the source are undefined
behaviour and are modelled by an explicit, documented choice:
* locals declared `bitmap span_mask;` are read uninitialised — modelled as 0;
* `GameState::get_attack_map` has no return statement — modelled as
  returning the accumulated local `attack_map` (the evident intent);
* `1ULL << s` for `s` outside `[0,64)` — modelled as 0 (the bit is shifted
  out of the 64-bit word).
-/

namespace Chess

inductive Player where
  | WHITE
  | BLACK
deriving DecidableEq, Repr

/-- Models the C++ expression `static_cast<Player>(to_move ^ 1)`. -/
def Player.opp : Player → Player
  | .WHITE => .BLACK
  | .BLACK => .WHITE

inductive Piece where
  | KING
  | QUEEN
  | ROOK
  | BISHOP
  | KNIGHT
  | PAWN
deriving DecidableEq, Repr

inductive CastlingVariant where
  | KING_SIDE
  | QUEEN_SIDE
deriving DecidableEq, Repr

/-- The order `for (int i = 0; i < 6; ++i)` iterates the piece masks in. -/
def pieceList : List Piece :=
  [Piece.KING, Piece.QUEEN, Piece.ROOK, Piece.BISHOP, Piece.KNIGHT, Piece.PAWN]

/-- 2^64, the modulus of C++ `unsigned long long` arithmetic. -/
def U64 : Nat := 2 ^ 64

/-- `1ULL << x` for a square `x : Int`.  Defined C++ behaviour only for
`0 ≤ x < 64`; shifts outside that range are UB and modelled as 0. -/
def bit (x : Int) : Nat :=
  if 0 ≤ x then (1 <<< x.toNat) % U64 else 0

/-- Conversion of a C++ `int` to `unsigned long long` (mod 2^64). -/
def u64ofInt (x : Int) : Nat := (x % (U64 : Int)).toNat

/-- `~mask` on 64 bits (for `mask < 2^64`). -/
def compl64 (m : Nat) : Nat := (U64 - 1) ^^^ m

/-- `INVALID_SQUARE = -1`. -/
def INVALID_SQUARE : Int := -1

structure GameState where
  to_move : Player
  pieces : Player → Piece → Nat
  half_move_counter : Nat
  can_castle_king_side : Player → Bool
  can_castle_queen_side : Player → Bool
  en_passant_square : Int

/-- The board filled in by the parameterless `GameState` constructor. -/
def initPieces : Player → Piece → Nat
  | .WHITE, .KING => 1 <<< 4
  | .BLACK, .KING => 1 <<< 60
  | .WHITE, .QUEEN => 1 <<< 3
  | .BLACK, .QUEEN => 1 <<< 59
  | .WHITE, .ROOK => (1 <<< 0) ||| (1 <<< 7)
  | .BLACK, .ROOK => (1 <<< 56) ||| (1 <<< 63)
  | .WHITE, .BISHOP => (1 <<< 2) ||| (1 <<< 5)
  | .BLACK, .BISHOP => (1 <<< 58) ||| (1 <<< 61)
  | .WHITE, .KNIGHT => (1 <<< 1) ||| (1 <<< 6)
  | .BLACK, .KNIGHT => (1 <<< 57) ||| (1 <<< 62)
  | .WHITE, .PAWN => 0xFF00
  | .BLACK, .PAWN => 0xFF000000000000

/-- The standard starting position built by `GameState::GameState()`. -/
def initialGameState : GameState :=
  ⟨Player.WHITE, initPieces, 0, fun _ => true, fun _ => true, INVALID_SQUARE⟩

/-- The loop body of `get_lowest_bit`: counts how many right shifts bring
`v` to zero.  The fuel 64 is exact for any `v < 2^64`. -/
def lowbit_iter : Nat → Nat → Nat
  | 0, _ => 0
  | f + 1, v => if v = 0 then 0 else lowbit_iter f (v >>> 1) + 1

/-- `GameState::get_lowest_bit`: isolates the lowest set bit with
`map & (-map)` (two's complement on 64 bits) and counts shifts until it
vanishes.  NOTE: for a mask whose lowest set bit is `k` this returns
`k + 1`, not `k`. -/
def get_lowest_bit (map : Nat) : Nat :=
  lowbit_iter 64 ((map &&& ((U64 - map) % U64)) % U64)

/-- `GameState::get_occupancy_map`. -/
def get_occupancy_map (s : GameState) : Nat :=
  pieceList.foldl (fun m i => m ||| (s.pieces Player.WHITE i ||| s.pieces Player.BLACK i)) 0

/-- `GameState::is_occupied`, the early-returning loop over the six kinds. -/
def is_occupied (s : GameState) (q : Int) : Bool :=
  pieceList.any fun i =>
    decide (s.pieces Player.WHITE i &&& bit q ≠ 0) ||
    decide (s.pieces Player.BLACK i &&& bit q ≠ 0)

/-- Loop body of `GameState::square_ownership`; `none` models the
`std::logic_error` thrown when the loop ends without finding an owner. -/
def ownership_loop (s : GameState) (q : Int) : List Piece → Option Player
  | [] => none
  | i :: rest =>
    if s.pieces Player.WHITE i &&& bit q ≠ 0 then some Player.WHITE
    else if s.pieces Player.BLACK i &&& bit q ≠ 0 then some Player.BLACK
    else ownership_loop s q rest

/-- `GameState::square_ownership`. -/
def square_ownership (s : GameState) (q : Int) : Option Player :=
  ownership_loop s q pieceList

/-- `(player == Player::WHITE) ? 1 : -1`. -/
def direction_modifier (p : Player) : Int :=
  if p = Player.WHITE then 1 else -1

/-- `GameState::span_pawn`.  Faithful to the source, including its
`span_mask |= finish` lines which OR in the square *index* (converted to
`unsigned long long`), not `1ULL << finish`; the uninitialised
`span_mask` is modelled as 0. -/
def span_pawn (s : GameState) (start : Int) (player : Player) : Nat :=
  let dm := direction_modifier player
  let f1 := start + dm * 8
  let can_move_forward := !is_occupied s f1
  let m1 : Nat := if can_move_forward then 0 ||| u64ofInt f1 else 0
  let step := fun (m : Nat) (off : Int) =>
    let f := start + dm * off
    if (is_occupied s f && decide (square_ownership s f ≠ some player)) ||
        decide (f = s.en_passant_square) then m ||| u64ofInt f else m
  let m2 := step m1 7
  let m3 := step m2 9
  if (decide (player = Player.WHITE) && decide (8 ≤ start) && decide (start < 16)) ||
      (decide (player = Player.BLACK) && decide (48 ≤ start) && decide (start < 56)) then
    let f2 := start + dm * 16
    if can_move_forward && !is_occupied s f2 then m3 ||| u64ofInt f2 else m3
  else m3

/-- `GameState::span_jumping` (the uninitialised `span_mask` modelled as 0). -/
def span_jumping (s : GameState) (start : Int) (player : Player)
    (direction_offset : List Int) : Nat :=
  direction_offset.foldl
    (fun m off =>
      let current := start + off
      if decide (0 ≤ current) && decide (current ≤ 63) &&
          (!is_occupied s current || decide (square_ownership s current ≠ some player)) then
        m ||| bit current
      else m)
    0

/-- One direction of `GameState::span_sliding`'s inner `while (true)` walk.
The walk moves by a fixed nonzero offset inside `[0,63]`, so 128 fuel can
never be exhausted; note the source adds a square to the mask only on the
enemy-capture branch. -/
def slide_loop (s : GameState) (player : Player) (off : Int) : Nat → Int → Nat
  | 0, _ => 0
  | f + 1, current =>
    let c := current + off
    if decide (c < 0) || decide (c > 63) then 0
    else if is_occupied s c then
      if square_ownership s c ≠ some player then bit c else 0
    else slide_loop s player off f c

/-- `GameState::span_sliding` (uninitialised `span_mask` modelled as 0). -/
def span_sliding (s : GameState) (start : Int) (player : Player)
    (direction_offset : List Int) (piece_type : Piece) : Nat :=
  let num_directions := if piece_type = Piece.QUEEN then 8 else 4
  (direction_offset.take num_directions).foldl
    (fun m off => m ||| slide_loop s player off 128 start) 0

def king_queen_offsets : List Int := [-1, 7, 8, 9, 1, -7, -8, -9]

def knight_offsets : List Int := [6, 15, 17, 10, -6, -15, -17, -10]

def rook_offsets : List Int := [-1, 8, 1, -8]

def bishop_offsets : List Int := [7, 9, -7, -9]

def span_king (s : GameState) (start : Int) (player : Player) : Nat :=
  span_jumping s start player king_queen_offsets

def span_knight (s : GameState) (start : Int) (player : Player) : Nat :=
  span_jumping s start player knight_offsets

def span_queen (s : GameState) (start : Int) (player : Player) : Nat :=
  span_sliding s start player king_queen_offsets Piece.QUEEN

def span_rook (s : GameState) (start : Int) (player : Player) : Nat :=
  span_sliding s start player rook_offsets Piece.ROOK

def span_bishop (s : GameState) (start : Int) (player : Player) : Nat :=
  span_sliding s start player bishop_offsets Piece.BISHOP

/-- `GameState::span`: dispatch over the closed six-kind enumeration. -/
def span (s : GameState) (start : Int) (player : Player) : Piece → Nat
  | .KING => span_king s start player
  | .QUEEN => span_queen s start player
  | .ROOK => span_rook s start player
  | .BISHOP => span_bishop s start player
  | .KNIGHT => span_knight s start player
  | .PAWN => span_pawn s start player

/-- `GameState::attacking_pawn`. -/
def attacking_pawn (s : GameState) (start : Int) (player : Player) : Nat :=
  bit (start + direction_modifier player * 7) ||| bit (start + direction_modifier player * 9)

/-- `GameState::attacking`. -/
def attacking (s : GameState) (start : Int) (player : Player) (piece : Piece) : Nat :=
  if piece ≠ Piece.PAWN then span s start player piece
  else attacking_pawn s start player

/-- The inner `while (piece_locations > 0)` loop of `get_attack_map`,
with explicit fuel. -/
def attack_loop (s : GameState) (player : Player) (piece : Piece) :
    Nat → Nat → Nat → Option Nat
  | 0, _, _ => none
  | f + 1, piece_locations, attack_map =>
    if piece_locations = 0 then some attack_map
    else
      let start := get_lowest_bit piece_locations
      let piece_attack := attacking s (start : Int) player piece
      attack_loop s player piece f
        (piece_locations ^^^ ((1 <<< start) % U64)) (attack_map ||| piece_attack)

/-- The outer `for` loop of `get_attack_map` over the six piece kinds.
On the `[]` case control reaches the end of the C++ function, which has
no return statement (its declared return type is even `square`, i.e.
`int`, not `bitmap`); the accumulated map is returned here as the
evident intent. -/
def attack_pieces_loop (fuel : Nat) (s : GameState) (player : Player) :
    List Piece → Nat → Option Nat
  | [], attack_map => some attack_map
  | i :: rest, attack_map =>
    match attack_loop s player i fuel (s.pieces player i) attack_map with
    | none => none
    | some attack_map2 => attack_pieces_loop fuel s player rest attack_map2

/-- `GameState::get_attack_map`. -/
def get_attack_map (fuel : Nat) (s : GameState) (player : Player) : Option Nat :=
  attack_pieces_loop fuel s player pieceList 0

/-- `GameState::get_king_position`. -/
def get_king_position (s : GameState) (player : Player) : Nat :=
  get_lowest_bit (s.pieces player Piece.KING)

/-- The three `Move` variants.  Each stores the `to_move` player passed to
its constructor; note the C++ `transform` implementations read
`state.to_move`, not the stored field. -/
inductive Move where
  | Normal (start finish : Int) (piece : Piece) (to_move : Player) (is_capture : Bool)
  | Promotion (start finish : Int) (to_move : Player) (promoted_piece : Piece)
  | Castling (variant : CastlingVariant) (to_move : Player)
deriving DecidableEq, Repr

/-- `NormalMove::transform`, `PromotionMove::transform` and
`CastlingMove::transform`, as one pure function on the tagged variant. -/
def transform : Move → GameState → GameState
  | .Normal start finish piece _mv is_capture, s =>
    let stm := s.to_move
    let p1 : Player → Piece → Nat := fun p k =>
      if is_capture ∧ p = stm.opp then s.pieces p k &&& compl64 (bit finish)
      else s.pieces p k
    let p2 : Player → Piece → Nat := fun p k =>
      if p = stm ∧ k = piece then (p1 p k ^^^ bit start) ||| bit finish
      else p1 p k
    let hm := if is_capture || decide (piece = Piece.PAWN) then 0
      else s.half_move_counter + 1
    let king_side_rook_square : Int := if stm = Player.WHITE then 7 else 63
    let queen_side_rook_square : Int := if stm = Player.WHITE then 0 else 56
    let cks : Player → Bool := fun p =>
      if p = stm ∧ p2 stm Piece.ROOK &&& bit king_side_rook_square = 0 then false
      else s.can_castle_king_side p
    let cqs : Player → Bool := fun p =>
      if p = stm ∧ p2 stm Piece.ROOK &&& bit queen_side_rook_square = 0 then false
      else s.can_castle_queen_side p
    let ep : Int :=
      if piece = Piece.PAWN ∧ (finish - start).natAbs = 16 then min start finish + 8
      else INVALID_SQUARE
    ⟨stm.opp, p2, hm, cks, cqs, ep⟩
  | .Promotion start finish _mv promoted_piece, s =>
    let stm := s.to_move
    let p1 : Player → Piece → Nat := fun p k =>
      if p = stm ∧ k = Piece.PAWN then s.pieces p k ^^^ bit start else s.pieces p k
    let p2 : Player → Piece → Nat := fun p k =>
      if p = stm ∧ k = promoted_piece then p1 p k ||| bit finish else p1 p k
    ⟨stm.opp, p2, 0, s.can_castle_king_side, s.can_castle_queen_side, INVALID_SQUARE⟩
  | .Castling variant _mv, s =>
    let stm := s.to_move
    let king_square : Int := if stm = Player.WHITE then 4 else 60
    let rook_square : Int :=
      if variant = CastlingVariant.KING_SIDE then (if stm = Player.WHITE then 7 else 63)
      else (if stm = Player.WHITE then 0 else 56)
    let new_king_square : Int :=
      if variant = CastlingVariant.KING_SIDE then king_square + 2 else king_square - 2
    let new_rook_square : Int :=
      if variant = CastlingVariant.KING_SIDE then rook_square - 2 else rook_square + 3
    let p1 : Player → Piece → Nat := fun p k =>
      if p = stm ∧ k = Piece.KING then (s.pieces p k ^^^ bit king_square) ||| bit new_king_square
      else s.pieces p k
    let p2 : Player → Piece → Nat := fun p k =>
      if p = stm ∧ k = Piece.ROOK then (p1 p k ^^^ bit rook_square) ||| bit new_rook_square
      else p1 p k
    let cks : Player → Bool := fun p => if p = stm then false else s.can_castle_king_side p
    let cqs : Player → Bool := fun p => if p = stm then false else s.can_castle_queen_side p
    ⟨stm.opp, p2, s.half_move_counter + 1, cks, cqs, INVALID_SQUARE⟩

/-- `GameState::in_check_after_move`. -/
def in_check_after_move (fuel : Nat) (s : GameState) (move : Move) : Option Bool :=
  let new_state := transform move s
  match get_attack_map fuel new_state s.to_move.opp with
  | none => none
  | some attack_map =>
    let king_position := get_king_position new_state s.to_move
    some (decide (attack_map &&& ((1 <<< king_position) % U64) ≠ 0))

/-- `GameState::is_check`. -/
def is_check (fuel : Nat) (s : GameState) : Option Bool :=
  match get_attack_map fuel s s.to_move.opp with
  | none => none
  | some attack_map =>
    let king_position := get_king_position s s.to_move
    some (decide (attack_map &&& ((1 <<< king_position) % U64) ≠ 0))

/-- The `in_between_squares` the king-side condition tests for occupancy. -/
def king_side_in_between_squares (p : Player) : Nat :=
  if p = Player.WHITE then (1 <<< 5) ||| (1 <<< 6) else (1 <<< 61) ||| (1 <<< 62)

/-- The `passing_squares` the king-side condition tests against the
opponent's attack map.  NOTE: the Black branch of the source sets only
squares 60 and 61, omitting the king's landing square 62. -/
def king_side_passing_squares (p : Player) : Nat :=
  if p = Player.WHITE then (1 <<< 4) ||| (1 <<< 5) ||| (1 <<< 6)
  else (1 <<< 60) ||| (1 <<< 61)

def queen_side_in_between_squares (p : Player) : Nat :=
  if p = Player.WHITE then (1 <<< 1) ||| (1 <<< 2) ||| (1 <<< 3)
  else (1 <<< 57) ||| (1 <<< 58) ||| (1 <<< 59)

def queen_side_passing_squares (p : Player) : Nat :=
  if p = Player.WHITE then (1 <<< 2) ||| (1 <<< 3) ||| (1 <<< 4)
  else (1 <<< 58) ||| (1 <<< 59) ||| (1 <<< 60)

/-- `GameState::king_side_castling_conditions_satisfied`. -/
def king_side_castling_conditions_satisfied (fuel : Nat) (s : GameState) : Option Bool :=
  match get_attack_map fuel s s.to_move.opp with
  | none => none
  | some attack_map =>
    if king_side_passing_squares s.to_move &&& attack_map ≠ 0 then some false
    else if king_side_in_between_squares s.to_move &&& get_occupancy_map s ≠ 0 then some false
    else if !s.can_castle_king_side s.to_move then some false
    else some true

/-- `GameState::queen_side_castling_conditions_satisfied`. -/
def queen_side_castling_conditions_satisfied (fuel : Nat) (s : GameState) : Option Bool :=
  match get_attack_map fuel s s.to_move.opp with
  | none => none
  | some attack_map =>
    if queen_side_passing_squares s.to_move &&& attack_map ≠ 0 then some false
    else if queen_side_in_between_squares s.to_move &&& get_occupancy_map s ≠ 0 then some false
    else if !s.can_castle_queen_side s.to_move then some false
    else some true

/-- The fixed promotion order used by `get_valid_moves`. -/
def promo_pieces : List Piece :=
  [Piece.QUEEN, Piece.ROOK, Piece.BISHOP, Piece.KNIGHT]

/-- The promotion generation loop of `get_valid_moves`. -/
def promo_loop (fuel : Nat) (s : GameState) (start finish : Int) :
    List Piece → List Move → Option (List Move)
  | [], acc => some acc
  | pp :: rest, acc =>
    let m := Move.Promotion start finish s.to_move pp
    match in_check_after_move fuel s m with
    | none => none
    | some b => promo_loop fuel s start finish rest (if b then acc else acc ++ [m])

/-- The inner `while (piece_span > 0)` loop of `get_valid_moves`.
Faithful to the source, including the `piece_span ^= finish` line which
XORs the square *index* into the span mask, not `1ULL << finish`. -/
def span_moves_loop (fuel : Nat) (s : GameState) (piece : Piece) (start : Int) :
    Nat → Nat → List Move → Option (List Move)
  | 0, _, _ => none
  | f + 1, piece_span, acc =>
    if piece_span = 0 then some acc
    else
      let finish : Int := (get_lowest_bit piece_span : Int)
      if piece = Piece.PAWN ∧ (finish < 8 ∨ 56 ≤ finish) then
        match promo_loop fuel s start finish promo_pieces acc with
        | none => none
        | some acc2 => span_moves_loop fuel s piece start f (piece_span ^^^ u64ofInt finish) acc2
      else
        let is_capture := is_occupied s finish
        let m := Move.Normal start finish piece s.to_move is_capture
        match in_check_after_move fuel s m with
        | none => none
        | some b =>
          span_moves_loop fuel s piece start f (piece_span ^^^ u64ofInt finish)
            (if b then acc else acc ++ [m])

/-- The `while (piece_locations > 0)` loop of `get_valid_moves`. -/
def locations_loop (fuel : Nat) (s : GameState) (piece : Piece) :
    Nat → Nat → List Move → Option (List Move)
  | 0, _, _ => none
  | f + 1, piece_locations, acc =>
    if piece_locations = 0 then some acc
    else
      let start := get_lowest_bit piece_locations
      let piece_span := span s (start : Int) s.to_move piece
      match span_moves_loop fuel s piece (start : Int) fuel piece_span acc with
      | none => none
      | some acc2 =>
        locations_loop fuel s piece f (piece_locations ^^^ ((1 <<< start) % U64)) acc2

/-- The outer `for` loop of `get_valid_moves` over the six piece kinds. -/
def pieces_moves_loop (fuel : Nat) (s : GameState) :
    List Piece → List Move → Option (List Move)
  | [], acc => some acc
  | i :: rest, acc =>
    match locations_loop fuel s i fuel (s.pieces s.to_move i) acc with
    | none => none
    | some acc2 => pieces_moves_loop fuel s rest acc2

/-- `GameState::get_valid_moves`. -/
def get_valid_moves (fuel : Nat) (s : GameState) : Option (List Move) :=
  match pieces_moves_loop fuel s pieceList [] with
  | none => none
  | some moves =>
    match king_side_castling_conditions_satisfied fuel s with
    | none => none
    | some ksok =>
      let moves2 := if ksok then moves ++ [Move.Castling CastlingVariant.KING_SIDE s.to_move]
        else moves
      match queen_side_castling_conditions_satisfied fuel s with
      | none => none
      | some qsok =>
        some (if qsok then moves2 ++ [Move.Castling CastlingVariant.QUEEN_SIDE s.to_move]
          else moves2)

/-- `GameState::no_valid_moves`.  NOTE: the body is
`return !get_valid_moves().empty();`, i.e. true when moves DO exist. -/
def no_valid_moves (fuel : Nat) (s : GameState) : Option Bool :=
  match get_valid_moves fuel s with
  | none => none
  | some moves => some (!moves.isEmpty)

/-- `GameState::is_checkmate` (short-circuiting `&&`). -/
def is_checkmate (fuel : Nat) (s : GameState) : Option Bool :=
  match is_check fuel s with
  | none => none
  | some false => some false
  | some true => no_valid_moves fuel s

/-- `GameState::is_stalemate` (short-circuiting `&&`). -/
def is_stalemate (fuel : Nat) (s : GameState) : Option Bool :=
  match is_check fuel s with
  | none => none
  | some true => some false
  | some false => no_valid_moves fuel s

/-- Sequential application of moves, for the temporal claims. -/
def apply_all (ms : List Move) (s : GameState) : GameState :=
  ms.foldl (fun st m => transform m st) s

/-- Number of set bits among the 64 board bits of a mask. -/
def popcount (n : Nat) : Nat :=
  ((Finset.range 64).filter (fun i => Nat.testBit n i)).card

/-- Total number of set bits across all 12 piece masks. -/
def totalBits (s : GameState) : Nat :=
  (pieceList.map (fun k => popcount (s.pieces Player.WHITE k) + popcount (s.pieces Player.BLACK k))).sum

/-- A position with all 12 masks zero, both castling flags still true. -/
def emptyState : GameState :=
  ⟨Player.WHITE, fun _ _ => 0, 0, fun _ => true, fun _ => true, INVALID_SQUARE⟩

/-- A position whose only piece is a white knight on a1 (square 0). -/
def knightState : GameState :=
  ⟨Player.WHITE,
    fun p k => if p = Player.WHITE ∧ k = Piece.KNIGHT then 1 <<< 0 else 0,
    0, fun _ => true, fun _ => true, INVALID_SQUARE⟩

/-- White pawn on b7 (49), black rook on a8 (56), kings on e1/e8. -/
def promoState : GameState :=
  ⟨Player.WHITE,
    fun p k =>
      if p = Player.WHITE ∧ k = Piece.PAWN then 1 <<< 49
      else if p = Player.BLACK ∧ k = Piece.ROOK then 1 <<< 56
      else if p = Player.WHITE ∧ k = Piece.KING then 1 <<< 4
      else if p = Player.BLACK ∧ k = Piece.KING then 1 <<< 60
      else 0,
    0, fun _ => true, fun _ => true, INVALID_SQUARE⟩

/-- Position right after Black played d7-d5: white pawn on e5 (36), black
pawn on d5 (35), kings on e1/e8, `en_passant_square = 43` (d6). -/
def epState : GameState :=
  ⟨Player.WHITE,
    fun p k =>
      if p = Player.WHITE ∧ k = Piece.PAWN then 1 <<< 36
      else if p = Player.BLACK ∧ k = Piece.PAWN then 1 <<< 35
      else if p = Player.WHITE ∧ k = Piece.KING then 1 <<< 4
      else if p = Player.BLACK ∧ k = Piece.KING then 1 <<< 60
      else 0,
    0, fun _ => true, fun _ => true, 43⟩

/-- An otherwise empty position in which White has already lost the
king-side castling right. -/
def c8WitnessState : GameState :=
  ⟨Player.WHITE, fun _ _ => 0, 0, fun _ => false, fun _ => true, INVALID_SQUARE⟩

/-- Claim C2 (code_bug evidence): `get_lowest_bit` is off by one.  On the
mask `1` (only bit 0 set) it returns 1, and on `1 <<< 4` (only bit 4 set)
it returns 5, although the least-significant set-bit indices are 0 and 4. -/
theorem c2_get_lowest_bit_off_by_one :
    get_lowest_bit 1 = 1 ∧ get_lowest_bit (1 <<< 4) = 5 ∧
    Nat.testBit 1 0 = true ∧ Nat.testBit (1 <<< 4) 4 = true := by decide

/-- Claim C4 (code_bug evidence): on the starting position the span of the
white pawn on a2 (square 8) is the mask 24 = bits {3,4} — the source ORs in
the square indices 16 and 24 themselves — instead of the mask with bits 16
(a3) and 24 (a4) set that the claim requires. -/
theorem c4_span_pawn_wrong_bits :
    span_pawn initialGameState 8 Player.WHITE = 24 ∧
    (24 : Nat) ≠ (1 <<< 16) ||| (1 <<< 24) := by decide

/-- Claim C5 (code_bug evidence): the span of a knight on a1 (square 0)
contains square 6 (g1), reached by wrapping across the board edge — the
flat offset 6 is applied with only a 0..63 bounds check. -/
theorem c5_span_knight_wraps_edge :
    Nat.testBit (span_knight knightState 0 Player.WHITE) 6 = true ∧
    span_knight knightState 0 Player.WHITE =
      (1 <<< 6) ||| (1 <<< 10) ||| (1 <<< 15) ||| (1 <<< 17) := by decide

/-- Claim C6 (code_bug evidence): the passing-squares mask the Black
king-side castling condition tests against the opponent's attack map omits
the king's landing square g8 (62), while the White branch does include the
corresponding landing square g1 (6). -/
theorem c6_black_king_side_passing_mask_omits_g8 :
    Nat.testBit (king_side_passing_squares Player.BLACK) 62 = false ∧
    Nat.testBit (king_side_passing_squares Player.BLACK) 60 = true ∧
    Nat.testBit (king_side_passing_squares Player.BLACK) 61 = true ∧
    Nat.testBit (king_side_passing_squares Player.WHITE) 6 = true := by decide

/-- Claim C7 (code_bug evidence): applying a promotion whose destination
a8 (square 56) holds a black rook leaves both the new white queen bit and
the black rook bit set on square 56 — `PromotionMove::transform` never
clears the opponent's masks, violating the no-overlap invariant. -/
theorem c7_promotion_capture_overlap :
    Nat.testBit
      ((transform (Move.Promotion 49 56 Player.WHITE Piece.QUEEN) promoState).pieces
        Player.WHITE Piece.QUEEN) 56 = true ∧
    Nat.testBit
      ((transform (Move.Promotion 49 56 Player.WHITE Piece.QUEEN) promoState).pieces
        Player.BLACK Piece.ROOK) 56 = true := by decide

/-- Claim C1 (code_bug evidence): on the all-empty position the enumerator
returns the two castling moves, yet `is_stalemate` answers true —
`no_valid_moves()` is `!get_valid_moves().empty()`, true exactly when
moves DO exist. -/
theorem c1_stalemate_polarity_bug :
    is_stalemate 8 emptyState = some true ∧
    get_valid_moves 8 emptyState =
      some [Move.Castling CastlingVariant.KING_SIDE Player.WHITE,
        Move.Castling CastlingVariant.QUEEN_SIDE Player.WHITE] := by decide

lemma attack_loop_initial_cycle : ∀ f,
    attack_loop initialGameState Player.WHITE Piece.KING f 16 0 = none ∧
    attack_loop initialGameState Player.WHITE Piece.KING f 48 0 = none := by
  intro f
  induction f with
  | zero => exact ⟨rfl, rfl⟩
  | succ n ih =>
    refine ⟨?_, ?_⟩
    · have h : attack_loop initialGameState Player.WHITE Piece.KING (n + 1) 16 0 =
          attack_loop initialGameState Player.WHITE Piece.KING n 48 0 := rfl
      rw [h]; exact ih.2
    · have h : attack_loop initialGameState Player.WHITE Piece.KING (n + 1) 48 0 =
          attack_loop initialGameState Player.WHITE Piece.KING n 16 0 := rfl
      rw [h]; exact ih.1

/-- Claim C3 (code_bug evidence): for the starting position and side White,
`get_attack_map` never returns a mask, whatever fuel the loops are given:
the bit-scan off-by-one makes `piece_locations ^= (1ULL << start)` toggle
the wrong bit, so the king's location bit is never cleared and the inner
while loop cycles forever (the source in addition lacks any return
statement, and its declared return type is `square`, an `int`). -/
theorem c3_get_attack_map_never_returns (fuel : Nat) :
    get_attack_map fuel initialGameState Player.WHITE = none := by
  have h := (attack_loop_initial_cycle fuel).1
  have e : get_attack_map fuel initialGameState Player.WHITE =
      match attack_loop initialGameState Player.WHITE Piece.KING fuel 16 0 with
      | none => none
      | some a =>
        attack_pieces_loop fuel initialGameState Player.WHITE
          [Piece.QUEEN, Piece.ROOK, Piece.BISHOP, Piece.KNIGHT, Piece.PAWN] a := rfl
  rw [e, h]

lemma transform_ks_false (m : Move) (s : GameState) (p : Player)
    (h : s.can_castle_king_side p = false) :
    (transform m s).can_castle_king_side p = false := by
  cases m with
  | Normal start finish piece mv cap =>
    dsimp only [transform]
    split_ifs <;> first | rfl | exact h
  | Promotion start finish mv promoted => exact h
  | Castling variant mv =>
    dsimp only [transform]
    split_ifs <;> first | rfl | exact h

lemma transform_qs_false (m : Move) (s : GameState) (p : Player)
    (h : s.can_castle_queen_side p = false) :
    (transform m s).can_castle_queen_side p = false := by
  cases m with
  | Normal start finish piece mv cap =>
    dsimp only [transform]
    split_ifs <;> first | rfl | exact h
  | Promotion start finish mv promoted => exact h
  | Castling variant mv =>
    dsimp only [transform]
    split_ifs <;> first | rfl | exact h

/-- Claim C8: castling rights are monotone.  Once a side's flag for a wing
is false, applying any sequence of moves of any kind never turns it back
to true: no branch of any `transform` writes `true` into the flags. -/
theorem c8_castling_rights_monotone (s : GameState) (ms : List Move) (p : Player) :
    (s.can_castle_king_side p = false → (apply_all ms s).can_castle_king_side p = false) ∧
    (s.can_castle_queen_side p = false → (apply_all ms s).can_castle_queen_side p = false) := by
  induction ms generalizing s with
  | nil => exact ⟨fun h => h, fun h => h⟩
  | cons m rest ih =>
    refine ⟨fun h => ?_, fun h => ?_⟩
    · exact (ih (transform m s)).1 (transform_ks_false m s p h)
    · exact (ih (transform m s)).2 (transform_qs_false m s p h)

/-- Witness for C8 at a concrete position and move sequence. -/
theorem c8_witness :
    c8WitnessState.can_castle_king_side Player.WHITE = false ∧
    (apply_all [Move.Normal 8 16 Piece.PAWN Player.WHITE false,
      Move.Normal 52 44 Piece.PAWN Player.BLACK false]
        c8WitnessState).can_castle_king_side Player.WHITE = false :=
  ⟨by decide,
    (c8_castling_rights_monotone c8WitnessState
      [Move.Normal 8 16 Piece.PAWN Player.WHITE false,
        Move.Normal 52 44 Piece.PAWN Player.BLACK false] Player.WHITE).1 (by decide)⟩

lemma ownership_loop_spec (s : GameState) (q : Int) : ∀ l : List Piece,
    (ownership_loop s q l = none ↔
      (l.any fun i =>
        decide (s.pieces Player.WHITE i &&& bit q ≠ 0) ||
        decide (s.pieces Player.BLACK i &&& bit q ≠ 0)) = false) ∧
    (∀ p, ownership_loop s q l = some p → ∃ k ∈ l, s.pieces p k &&& bit q ≠ 0) := by
  intro l
  induction l with
  | nil =>
    refine ⟨by simp [ownership_loop], fun p h => ?_⟩
    simp [ownership_loop] at h
  | cons i rest ih =>
    by_cases hw : s.pieces Player.WHITE i &&& bit q ≠ 0
    · refine ⟨?_, fun p h => ?_⟩
      · simp [ownership_loop, hw]
      · simp only [ownership_loop, if_pos hw] at h
        exact ⟨i, by simp, by rw [← Option.some_inj.mp h]; exact hw⟩
    · by_cases hb : s.pieces Player.BLACK i &&& bit q ≠ 0
      · refine ⟨?_, fun p h => ?_⟩
        · simp [ownership_loop, hw, hb]
        · simp only [ownership_loop, if_neg hw, if_pos hb] at h
          exact ⟨i, by simp, by rw [← Option.some_inj.mp h]; exact hb⟩
      · refine ⟨?_, fun p h => ?_⟩
        · simp only [ownership_loop, if_neg hw, if_neg hb, List.any_cons]
          simp [hw, hb, ih.1]
        · simp only [ownership_loop, if_neg hw, if_neg hb] at h
          obtain ⟨k, hk, hkq⟩ := ih.2 p h
          exact ⟨k, List.mem_cons_of_mem i hk, hkq⟩

/-- Claim C9: `square_ownership` signals the `std::logic_error`
(modelled as `none`) exactly when the queried square is unoccupied by
either side, and when it returns a side that side does own a piece on the
square. -/
theorem c9_square_ownership_spec (s : GameState) (q : Int)
    (h0 : 0 ≤ q) (h1 : q < 64) :
    (square_ownership s q = none ↔ is_occupied s q = false) ∧
    (∀ p, square_ownership s q = some p → ∃ k, s.pieces p k &&& bit q ≠ 0) := by
  have h := ownership_loop_spec s q pieceList
  refine ⟨h.1, fun p hp => ?_⟩
  obtain ⟨k, _, hk⟩ := h.2 p hp
  exact ⟨k, hk⟩

/-- Witness for C9 at the starting position. -/
theorem c9_witness :
    (0 : Int) ≤ 0 ∧ (0 : Int) < 64 ∧
    (square_ownership initialGameState 0 = none ↔ is_occupied initialGameState 0 = false) :=
  ⟨by decide, by decide, (c9_square_ownership_spec initialGameState 0 (by decide) (by decide)).1⟩

lemma bit_eq_pow (x : Int) (h0 : 0 ≤ x) (h1 : x < 64) : bit x = 2 ^ x.toNat := by
  have hx : x.toNat < 64 := by omega
  simp only [bit, if_pos h0, Nat.one_shiftLeft, U64]
  exact Nat.mod_eq_of_lt (Nat.pow_lt_pow_right (by norm_num) hx)

lemma testBit_eq_false_of_and_pow (m b : Nat) (hz : m &&& 2 ^ b = 0) :
    m.testBit b = false := by
  have h := congrArg (fun n => n.testBit b) hz
  simpa [Nat.testBit_land, Nat.testBit_two_pow_self] using h

/-- Clearing a set bit and setting a clear bit leaves the popcount fixed. -/
lemma popcount_clear_set (m a b : Nat) (ha : a < 64) (hb : b < 64)
    (hma : m.testBit a = true) (hmb : m.testBit b = false) :
    popcount ((m ^^^ 2 ^ a) ||| 2 ^ b) = popcount m := by
  have hab : a ≠ b := by
    intro h
    rw [h, hmb] at hma
    exact absurd hma (by simp)
  have hbit : ∀ i, ((m ^^^ 2 ^ a) ||| 2 ^ b).testBit i =
      if i = b then true else if i = a then false else m.testBit i := by
    intro i
    rw [Nat.testBit_lor, Nat.testBit_xor]
    by_cases hib : i = b
    · subst hib
      simp [Nat.testBit_two_pow_self]
    · rw [Nat.testBit_two_pow_of_ne (fun h => hib h.symm)]
      by_cases hia : i = a
      · subst hia
        simp [Nat.testBit_two_pow_self, hma, hib]
      · rw [Nat.testBit_two_pow_of_ne (fun h => hia h.symm)]
        simp [hib, hia]
  have hset : (Finset.range 64).filter (fun i => ((m ^^^ 2 ^ a) ||| 2 ^ b).testBit i) =
      insert b (((Finset.range 64).filter (fun i => m.testBit i)).erase a) := by
    ext i
    simp only [Finset.mem_filter, Finset.mem_insert, Finset.mem_erase, Finset.mem_range, hbit]
    by_cases hib : i = b
    · subst hib
      simp [hb]
    · by_cases hia : i = a
      · subst hia
        simp [hab, hma, hib]
      · simp [hib, hia]
  have hmem_a : a ∈ (Finset.range 64).filter (fun i => m.testBit i) :=
    Finset.mem_filter.mpr ⟨Finset.mem_range.mpr ha, hma⟩
  have hnotmem_b : b ∉ ((Finset.range 64).filter (fun i => m.testBit i)).erase a := by
    intro hmem
    have h2 := (Finset.mem_filter.mp (Finset.mem_erase.mp hmem).2).2
    rw [hmb] at h2
    exact absurd h2 (by simp)
  have hpos : 0 < ((Finset.range 64).filter (fun i => m.testBit i)).card :=
    Finset.card_pos.mpr ⟨a, hmem_a⟩
  rw [popcount, popcount, hset, Finset.card_insert_of_not_mem hnotmem_b,
    Finset.card_erase_of_mem hmem_a]
  omega

lemma mem_pieceList (k : Piece) : k ∈ pieceList := by
  cases k <;> simp [pieceList]

lemma masks_and_zero_of_unoccupied (s : GameState) (t : Int)
    (h : is_occupied s t = false) (p : Player) (k : Piece) :
    s.pieces p k &&& bit t = 0 := by
  simp only [is_occupied, List.any_eq_false] at h
  have h2 := h k (mem_pieceList k)
  simp only [Bool.or_eq_true, decide_eq_true_eq, not_or, not_not] at h2
  cases p
  · exact h2.1
  · exact h2.2

lemma player_opp_ne (p : Player) : p.opp ≠ p := by
  cases p <;> decide

/-- The piece masks produced by `NormalMove::transform` for a non-capture
move: only the mover's mask for the moved piece kind changes. -/
lemma transform_normal_noncapture_pieces (s : GameState) (start finish : Int)
    (piece : Piece) (mv : Player) (p : Player) (k : Piece) :
    (transform (Move.Normal start finish piece mv false) s).pieces p k =
      if p = s.to_move ∧ k = piece then (s.pieces p k ^^^ bit start) ||| bit finish
      else s.pieces p k := by
  have hcap : ¬((false = true) ∧ p = s.to_move.opp) := by simp
  by_cases h : p = s.to_move ∧ k = piece
  · show (if p = s.to_move ∧ k = piece then
        ((if (false = true) ∧ p = s.to_move.opp then
          s.pieces p k &&& compl64 (bit finish) else s.pieces p k) ^^^ bit start) ||| bit finish
      else if (false = true) ∧ p = s.to_move.opp then
        s.pieces p k &&& compl64 (bit finish) else s.pieces p k) = _
    rw [if_pos h, if_pos h, if_neg hcap]
  · show (if p = s.to_move ∧ k = piece then
        ((if (false = true) ∧ p = s.to_move.opp then
          s.pieces p k &&& compl64 (bit finish) else s.pieces p k) ^^^ bit start) ||| bit finish
      else if (false = true) ∧ p = s.to_move.opp then
        s.pieces p k &&& compl64 (bit finish) else s.pieces p k) = _
    rw [if_neg h, if_neg h, if_neg hcap]

lemma totalBits_congr (s1 s2 : GameState)
    (h : ∀ p k, popcount (s2.pieces p k) = popcount (s1.pieces p k)) :
    totalBits s2 = totalBits s1 := by
  simp only [totalBits, pieceList, List.map_cons, List.map_nil, List.sum_cons,
    List.sum_nil, h]

/-- Claim C10: a pawn move to an unoccupied en-passant target square is
built by the enumerator with `is_capture = is_occupied(finish) = false`;
applying it through `NormalMove::transform` leaves every opponent mask
unchanged (so the just-advanced enemy pawn stays on the board) and the
total number of set bits across the 12 masks does not decrease — it stays
exactly equal. -/
theorem c10_en_passant_noncapture (s : GameState) (start t : Int)
    (h0 : 0 ≤ start) (h1 : start < 64) (h2 : 0 ≤ t) (h3 : t < 64)
    (hep : s.en_passant_square = t)
    (hunocc : is_occupied s t = false)
    (hpawn : (s.pieces s.to_move Piece.PAWN).testBit start.toNat = true) :
    Move.Normal start t Piece.PAWN s.to_move (is_occupied s t) =
      Move.Normal start t Piece.PAWN s.to_move false ∧
    (∀ k, (transform (Move.Normal start t Piece.PAWN s.to_move false) s).pieces
      s.to_move.opp k = s.pieces s.to_move.opp k) ∧
    totalBits (transform (Move.Normal start t Piece.PAWN s.to_move false) s) =
      totalBits s := by
  have hp := fun p k =>
    transform_normal_noncapture_pieces s start t Piece.PAWN s.to_move p k
  refine ⟨by rw [hunocc], fun k => ?_, ?_⟩
  · rw [hp s.to_move.opp k, if_neg (fun hcon => player_opp_ne s.to_move hcon.1)]
  · have hbs : bit start = 2 ^ start.toNat := bit_eq_pow start h0 h1
    have hbt : bit t = 2 ^ t.toNat := bit_eq_pow t h2 h3
    have hta : start.toNat < 64 := by omega
    have htb : t.toNat < 64 := by omega
    have hmb : (s.pieces s.to_move Piece.PAWN).testBit t.toNat = false := by
      apply testBit_eq_false_of_and_pow
      rw [← hbt]
      exact masks_and_zero_of_unoccupied s t hunocc s.to_move Piece.PAWN
    have hpc : popcount ((s.pieces s.to_move Piece.PAWN ^^^ bit start) ||| bit t) =
        popcount (s.pieces s.to_move Piece.PAWN) := by
      rw [hbs, hbt]
      exact popcount_clear_set _ _ _ hta htb hpawn hmb
    apply totalBits_congr
    intro p k
    by_cases hcon : p = s.to_move ∧ k = Piece.PAWN
    · obtain ⟨hp1, hk1⟩ := hcon
      subst hp1
      subst hk1
      rw [hp s.to_move Piece.PAWN, if_pos ⟨rfl, rfl⟩, hpc]
    · rw [hp p k, if_neg hcon]

/-- Witness for C10 in the position after Black's d7-d5, with the white
e5-pawn capturing en passant on d6 (square 43). -/
theorem c10_witness :
    is_occupied epState 43 = false ∧
    (transform (Move.Normal 36 43 Piece.PAWN Player.WHITE false) epState).pieces
      Player.BLACK Piece.PAWN = epState.pieces Player.BLACK Piece.PAWN ∧
    totalBits (transform (Move.Normal 36 43 Piece.PAWN Player.WHITE false) epState) =
      totalBits epState :=
  ⟨by decide,
    (c10_en_passant_noncapture epState 36 43 (by decide) (by decide) (by decide)
      (by decide) (by decide) (by decide) (by decide)).2.1 Piece.PAWN,
    (c10_en_passant_noncapture epState 36 43 (by decide) (by decide) (by decide)
      (by decide) (by decide) (by decide) (by decide)).2.2⟩

end Chess
